import Mathlib

/-!
Verification of the rule-filtering and target-resolution core of the
sfdx-scanner repository.

The repository snapshot contains the `RuleManager` interface
(`src/lib/RuleManager.ts`) and the test suites exercising
`DefaultRuleManager` (`getRulesMatchingCriteria`,
`getRulesMatchingOnlyExplicitCriteria`, `runRulesMatchingCriteria`,
`unpackTargets`), but not the implementation files themselves
(`DefaultRuleManager.ts`, the `RuleCatalog` implementation, the
`TargetResolver` logic).  The implementations are therefore modelled
from the design specification (spec.md §3, §4.1–§4.3), with the test
suite used to pin down observable behaviour (exact warning shapes,
drop-empty-target policy, single telemetry event).
-/

/-- A rule of the catalog: identified by engine name and rule name, tagged
with categories, rulesets and languages, and carrying a default-enabled
flag (spec.md §3 "Rule"). -/
structure Rule where
  engine : String
  name : String
  categories : List String
  rulesets : List String
  languages : List String
  defaultEnabled : Bool
deriving DecidableEq

/-- The four filtering dimensions of a rule filter (spec.md §3
"RuleFilter": cases Category, Ruleset, Engine, Language). -/
inductive FilterType
  | category
  | ruleset
  | engineType
  | language
deriving DecidableEq

/-- The list of all filtering dimensions. -/
def allFilterTypes : List FilterType :=
  [FilterType.category, FilterType.ruleset, FilterType.engineType, FilterType.language]

/-- Modelled from the spec: `RuleFilter` (spec.md §3), a tagged variant
with cases `{Category, Ruleset, Engine, Language}`, each carrying a set of
accepted string values.  The concrete class `src/lib/RuleFilter.ts` is not
in the snapshot; only its use in the tests is. -/
inductive RuleFilter
  | category (values : List String)
  | ruleset (values : List String)
  | engineFilter (values : List String)
  | language (values : List String)
deriving DecidableEq

/-- The dimension of a filter. -/
def RuleFilter.ftype : RuleFilter → FilterType
  | RuleFilter.category _ => FilterType.category
  | RuleFilter.ruleset _ => FilterType.ruleset
  | RuleFilter.engineFilter _ => FilterType.engineType
  | RuleFilter.language _ => FilterType.language

/-- The accepted values of a filter. -/
def RuleFilter.values : RuleFilter → List String
  | RuleFilter.category vs => vs
  | RuleFilter.ruleset vs => vs
  | RuleFilter.engineFilter vs => vs
  | RuleFilter.language vs => vs

/-- Whether a rule carries a given value on a given dimension. -/
def ruleHasTag (r : Rule) : FilterType → String → Bool
  | FilterType.category, v => r.categories.contains v
  | FilterType.ruleset, v => r.rulesets.contains v
  | FilterType.engineType, v => r.engine == v
  | FilterType.language, v => r.languages.contains v

/-- A rule matches one filter when it carries any of the filter's accepted
values on the filter's dimension (OR within a dimension, spec.md §3). -/
def matchesFilter (r : Rule) (f : RuleFilter) : Bool :=
  f.values.any (ruleHasTag r f.ftype)

/-- A rule matches a dimension of a filter list when the list supplies no
filter of that dimension (the dimension is unconstrained) or the rule
matches some filter of that dimension (spec.md §3, §9). -/
def matchesDimension (r : Rule) (filters : List RuleFilter) (ft : FilterType) : Bool :=
  !(filters.any (fun f => f.ftype == ft)) ||
    filters.any (fun f => f.ftype == ft && matchesFilter r f)

/-- A rule matches a filter list when it matches every dimension
(AND across dimensions, spec.md §3). -/
def matchesFilters (r : Rule) (filters : List RuleFilter) : Bool :=
  allFilterTypes.all (matchesDimension r filters)

/-- Modelled from the spec: `getRulesMatchingOnlyExplicitCriteria`
(spec.md §4.1): rules satisfying the supplied filters with no
implicit-default narrowing; with an empty filter list every rule of the
catalog matches.  The implementing class is not in the snapshot. -/
def getRulesMatchingOnlyExplicitCriteria (catalog : List Rule) (filters : List RuleFilter) : List Rule :=
  catalog.filter (fun r => matchesFilters r filters)

/-- Modelled from the spec: `getRulesMatchingCriteria` (spec.md §3, §4.1):
rules satisfying the supplied filters under the implicit default — a rule
disabled by default is excluded, and none of the four filter variants
re-enables it (only an explicit include-disabled pathway external to this
core does).  The implementing class is not in the snapshot. -/
def getRulesMatchingCriteria (catalog : List Rule) (filters : List RuleFilter) : List Rule :=
  catalog.filter (fun r => r.defaultEnabled && matchesFilters r filters)

/-- With an empty filter list, every dimension is unconstrained. -/
theorem matchesFilters_nil (r : Rule) : matchesFilters r [] = true := by
  rfl

/-- C1: `getRulesMatchingCriteria` with an empty filter list returns
exactly the default-enabled rules of the catalog, while
`getRulesMatchingOnlyExplicitCriteria` with an empty filter list returns
the whole catalog, disabled rules included. -/
theorem getRulesMatchingCriteria_empty_filters (catalog : List Rule) :
    getRulesMatchingCriteria catalog [] = catalog.filter (fun r => r.defaultEnabled) ∧
    getRulesMatchingOnlyExplicitCriteria catalog [] = catalog := by
  constructor
  · unfold getRulesMatchingCriteria
    apply List.filter_congr
    intro r _
    rw [matchesFilters_nil]
    simp
  · unfold getRulesMatchingOnlyExplicitCriteria
    have h : ∀ r ∈ catalog, matchesFilters r [] = true := by
      intro r _
      exact matchesFilters_nil r
    rw [List.filter_congr h]
    exact List.filter_true catalog

/-- Matching a two-filter list over a single dimension is the disjunction
of matching each filter alone (OR within a dimension). -/
theorem matchesFilters_pair_same (r : Rule) (F1 F2 : RuleFilter) (h : F1.ftype = F2.ftype) :
    matchesFilters r [F1, F2] = (matchesFilters r [F1] || matchesFilters r [F2]) := by
  have h2 := h.symm
  cases hft : F1.ftype <;>
    (rw [hft] at h2;
     simp [matchesFilters, allFilterTypes, matchesDimension, hft, h2, instBEqOfDecidableEq])

/-- Matching a two-filter list over two distinct dimensions is the
conjunction of matching each filter alone (AND across dimensions). -/
theorem matchesFilters_pair_diff (r : Rule) (Fa Fb : RuleFilter) (h : Fa.ftype ≠ Fb.ftype) :
    matchesFilters r [Fa, Fb] = (matchesFilters r [Fa] && matchesFilters r [Fb]) := by
  cases hfa : Fa.ftype <;> cases hfb : Fb.ftype <;>
    first
      | exact absurd (hfa.trans hfb.symm) h
      | simp [matchesFilters, allFilterTypes, matchesDimension, hfa, hfb, instBEqOfDecidableEq,
          Bool.and_comm]

/-- C2: two filters of the same dimension applied together match exactly
the union of the rules matched by each filter alone. -/
theorem getRulesMatchingCriteria_same_dimension_union (catalog : List Rule)
    (F1 F2 : RuleFilter) (h : F1.ftype = F2.ftype) (r : Rule) :
    r ∈ getRulesMatchingCriteria catalog [F1, F2] ↔
      r ∈ getRulesMatchingCriteria catalog [F1] ∨
        r ∈ getRulesMatchingCriteria catalog [F2] := by
  simp only [getRulesMatchingCriteria, List.mem_filter,
    matchesFilters_pair_same r F1 F2 h, Bool.and_eq_true, Bool.or_eq_true]
  tauto

/-- C3: two filters of different dimensions applied together match exactly
the intersection of the rules matched by each filter alone. -/
theorem getRulesMatchingCriteria_diff_dimension_inter (catalog : List Rule)
    (Fa Fb : RuleFilter) (h : Fa.ftype ≠ Fb.ftype) (r : Rule) :
    r ∈ getRulesMatchingCriteria catalog [Fa, Fb] ↔
      r ∈ getRulesMatchingCriteria catalog [Fa] ∧
        r ∈ getRulesMatchingCriteria catalog [Fb] := by
  simp only [getRulesMatchingCriteria, List.mem_filter,
    matchesFilters_pair_diff r Fa Fb h, Bool.and_eq_true]
  tauto

/-- A sample rule for concrete evaluations. -/
def ruleA : Rule :=
  { engine := "pmd", name := "ruleA", categories := ["Best Practices"],
    rulesets := ["Braces"], languages := ["apex"], defaultEnabled := true }

/-- A second sample rule for concrete evaluations. -/
def ruleB : Rule :=
  { engine := "eslint", name := "ruleB", categories := ["Design"],
    rulesets := [], languages := ["javascript"], defaultEnabled := true }

/-- A default-disabled sample rule for concrete evaluations. -/
def ruleC : Rule :=
  { engine := "retire-js", name := "ruleC", categories := ["Insecure Dependencies"],
    rulesets := [], languages := ["javascript"], defaultEnabled := false }

/-- A sample catalog for concrete evaluations. -/
def catalogEx : List Rule := [ruleA, ruleB, ruleC]

/-- Witness for C2 at a concrete catalog and two category filters. -/
theorem getRulesMatchingCriteria_same_dimension_union_witness :
    (RuleFilter.category ["Best Practices"]).ftype =
      (RuleFilter.category ["Design"]).ftype ∧
    (ruleA ∈ getRulesMatchingCriteria catalogEx
        [RuleFilter.category ["Best Practices"], RuleFilter.category ["Design"]] ↔
      ruleA ∈ getRulesMatchingCriteria catalogEx [RuleFilter.category ["Best Practices"]] ∨
        ruleA ∈ getRulesMatchingCriteria catalogEx [RuleFilter.category ["Design"]]) :=
  ⟨rfl, getRulesMatchingCriteria_same_dimension_union catalogEx
    (RuleFilter.category ["Best Practices"]) (RuleFilter.category ["Design"]) rfl ruleA⟩

/-- Witness for C3 at a concrete catalog, a language filter and a category
filter. -/
theorem getRulesMatchingCriteria_diff_dimension_inter_witness :
    (RuleFilter.language ["javascript"]).ftype ≠
      (RuleFilter.category ["Design"]).ftype ∧
    (ruleB ∈ getRulesMatchingCriteria catalogEx
        [RuleFilter.language ["javascript"], RuleFilter.category ["Design"]] ↔
      ruleB ∈ getRulesMatchingCriteria catalogEx [RuleFilter.language ["javascript"]] ∧
        ruleB ∈ getRulesMatchingCriteria catalogEx [RuleFilter.category ["Design"]]) :=
  ⟨by decide, getRulesMatchingCriteria_diff_dimension_inter catalogEx
    (RuleFilter.language ["javascript"]) (RuleFilter.category ["Design"]) (by decide) ruleB⟩

/-- The kind of a positive target entry (spec.md §4.2 input contract):
a literal file path, a literal directory path, or a positive glob. -/
inductive TargetKind
  | file
  | directory
  | glob
deriving DecidableEq

/-- Modelled from the spec: the filesystem interface the TargetResolver
consumes (spec.md §4.2 steps 2, 3 and 7).  The concrete resolver of
`DefaultRuleManager.ts` is not in the snapshot; its filesystem access is
abstracted into: existence of a literal file, the recursive walk of a
directory (empty when the directory does not exist), filesystem glob
expansion (empty when nothing matches), glob matching of a single path
against a pattern, and classification of a positive entry into
file/directory/glob.  Paths are taken as already normalized to forward
slashes (spec.md §4.2 step 7). -/
structure FileSystem where
  fileExists : String → Bool
  dirWalk : String → List String
  globExpand : String → List String
  globMatch : String → String → Bool
  classify : String → TargetKind

/-- One raw user-supplied target string after resolution for one engine
(spec.md §3 "RuleTarget"): the original string, a directory flag, and the
ordered, deduplicated, non-empty sequence of resolved file paths. -/
structure RuleTarget where
  target : String
  isDirectory : Bool
  paths : List String
deriving DecidableEq

/-- Whether a raw target entry is a negative glob (spec.md §4.2: begins
with an exclamation mark; checked on the first character, which on an
empty string is a default character and never the exclamation mark). -/
def isNegativeEntry (t : String) : Bool :=
  t.front == '!'

/-- The negative-glob patterns of a raw target list: the entries beginning
with an exclamation mark, with that mark removed (spec.md §4.2 step 1). -/
def targetPatterns (targets : List String) : List String :=
  (targets.filter isNegativeEntry).map (fun t => t.drop 1)

/-- The positive entries of a raw target list, in their original order
(spec.md §4.2 step 1). -/
def positiveEntries (targets : List String) : List String :=
  targets.filter (fun t => !(isNegativeEntry t))

/-- Modelled from the spec: candidate resolution of one positive entry
(spec.md §4.2 step 2): a file is itself when it exists and the engine
accepts it; a directory is its recursive walk filtered through the
engine's acceptance predicate; a glob is its filesystem expansion filtered
through the engine's acceptance predicate. -/
def candidatePaths (fs : FileSystem) (accepts : String → Bool) (t : String) : List String :=
  match fs.classify t with
  | TargetKind.file => if fs.fileExists t && accepts t then [t] else []
  | TargetKind.directory => (fs.dirWalk t).filter accepts
  | TargetKind.glob => (fs.globExpand t).filter accepts

/-- Negative-glob exclusion (spec.md §4.2 step 3): remove every path
matching any negative-glob pattern. -/
def excludeNegatives (fs : FileSystem) (negs : List String) (paths : List String) : List String :=
  paths.filter (fun p => !(negs.any (fun n => fs.globMatch n p)))

/-- Modelled from the spec: resolution of one positive entry (spec.md §4.2
steps 2–5): candidates, negative-glob exclusion, deduplication; an entry
whose resulting set is empty is dropped (no `RuleTarget`), otherwise one
`RuleTarget` is emitted with the directory flag from the entry's own
kind. -/
def resolveTarget (fs : FileSystem) (accepts : String → Bool) (negs : List String)
    (t : String) : Option RuleTarget :=
  let ps := (excludeNegatives fs negs (candidatePaths fs accepts t)).eraseDups
  if ps.isEmpty then none
  else some { target := t, isDirectory := fs.classify t == TargetKind.directory, paths := ps }

/-- Modelled from the spec: the `unpackTargets` algorithm of the
TargetResolver (spec.md §4.2): partition the raw list into negative
patterns and positive entries, resolve each positive entry against the
whole exclusion set, and keep the non-empty resolutions in positive-entry
order.  The implementing method of `DefaultRuleManager.ts` is not in the
snapshot; only its test suite is. -/
def unpackTargets (fs : FileSystem) (accepts : String → Bool) (targets : List String) :
    List RuleTarget :=
  (positiveEntries targets).filterMap (resolveTarget fs accepts (targetPatterns targets))

/-- A resolution that succeeds reports the entry it resolved as its
target, and its path list is the non-empty deduplicated filtered set. -/
theorem resolveTarget_eq_some (fs : FileSystem) (accepts : String → Bool)
    (negs : List String) (t : String) (rt : RuleTarget)
    (h : resolveTarget fs accepts negs t = some rt) :
    rt.target = t ∧ rt.paths ≠ [] := by
  unfold resolveTarget at h
  by_cases he : ((excludeNegatives fs negs (candidatePaths fs accepts t)).eraseDups).isEmpty
  · simp [he] at h
  · simp [he] at h
    constructor
    · rw [← h]
    · rw [← h]
      simpa [List.isEmpty_iff] using he

/-- An entry whose filtered candidate set is empty resolves to nothing. -/
theorem resolveTarget_none (fs : FileSystem) (accepts : String → Bool)
    (negs : List String) (t : String)
    (h : excludeNegatives fs negs (candidatePaths fs accepts t) = []) :
    resolveTarget fs accepts negs t = none := by
  unfold resolveTarget
  rw [h]
  rfl

/-- C4: `unpackTargets` emits no `RuleTarget` for a positive entry whose
resolved candidate set is empty after engine-acceptance filtering and
negative-glob exclusion, so every emitted `RuleTarget` has a non-empty
path sequence. -/
theorem unpackTargets_drops_empty (fs : FileSystem) (accepts : String → Bool)
    (targets : List String) :
    (∀ rt ∈ unpackTargets fs accepts targets, rt.paths ≠ []) ∧
    (∀ t, excludeNegatives fs (targetPatterns targets) (candidatePaths fs accepts t) = [] →
      ∀ rt ∈ unpackTargets fs accepts targets, rt.target ≠ t) := by
  constructor
  · intro rt hrt
    rw [unpackTargets, List.mem_filterMap] at hrt
    obtain ⟨t, _, hres⟩ := hrt
    exact (resolveTarget_eq_some fs accepts (targetPatterns targets) t rt hres).2
  · intro t hemp rt hrt hne
    rw [unpackTargets, List.mem_filterMap] at hrt
    obtain ⟨s, _, hres⟩ := hrt
    have hst : rt.target = s :=
      (resolveTarget_eq_some fs accepts (targetPatterns targets) s rt hres).1
    have hseq : s = t := by rw [← hst, hne]
    rw [hseq] at hres
    rw [resolveTarget_none fs accepts (targetPatterns targets) t hemp] at hres
    exact Option.noConfusion hres

/-- C5: permuting the raw target list while keeping the positive entries
in their original order — in particular, moving the negative-glob entries
around — does not change the resolved `RuleTarget` sequence. -/
theorem unpackTargets_negative_order_irrelevant (fs : FileSystem) (accepts : String → Bool)
    (ts1 ts2 : List String) (hperm : ts1.Perm ts2)
    (hpos : positiveEntries ts1 = positiveEntries ts2) :
    unpackTargets fs accepts ts1 = unpackTargets fs accepts ts2 := by
  have hnegs : (targetPatterns ts1).Perm (targetPatterns ts2) := by
    unfold targetPatterns
    exact List.Perm.map (fun t => t.drop 1) (hperm.filter isNegativeEntry)
  have hany : ∀ p, (targetPatterns ts1).any (fun n => fs.globMatch n p) =
      (targetPatterns ts2).any (fun n => fs.globMatch n p) := by
    intro p
    cases hb : (targetPatterns ts2).any (fun n => fs.globMatch n p)
    · rw [List.any_eq_false] at hb ⊢
      intro n hn
      exact hb n (hnegs.mem_iff.mp hn)
    · rw [List.any_eq_true] at hb ⊢
      obtain ⟨n, hn, hm⟩ := hb
      exact ⟨n, hnegs.mem_iff.mpr hn, hm⟩
  have hres : resolveTarget fs accepts (targetPatterns ts1) =
      resolveTarget fs accepts (targetPatterns ts2) := by
    funext t
    unfold resolveTarget
    have hex : excludeNegatives fs (targetPatterns ts1) (candidatePaths fs accepts t) =
        excludeNegatives fs (targetPatterns ts2) (candidatePaths fs accepts t) := by
      unfold excludeNegatives
      apply List.filter_congr
      intro p _
      rw [hany p]
    rw [hex]
  rw [unpackTargets, unpackTargets, hpos, hres]

/-- A sample filesystem for concrete evaluations: two literal JS files,
one Apex file, one directory, one glob pattern, and one negative pattern
that matches exactly one path. -/
def fsEx : FileSystem :=
  { fileExists := fun p => p == "a.js" || p == "sub/b.js" || p == "c.cls"
    dirWalk := fun d => if d == "dir" then ["dir/a.js", "dir/b.resource"] else []
    globExpand := fun g => if g == "star.js" then ["a.js", "sub/b.js"] else []
    globMatch := fun n p => n == "x" && p == "sub/b.js"
    classify := fun t =>
      if t == "dir" then TargetKind.directory
      else if t == "star.js" then TargetKind.glob
      else TargetKind.file }

/-- A sample engine-acceptance predicate: everything except the Apex
file. -/
def acceptsEx : String → Bool :=
  fun p => p != "c.cls"

/-- Witness for C4: in a concrete resolution the emitted target has
non-empty paths, and the entry with an empty candidate set is dropped. -/
theorem unpackTargets_drops_empty_witness :
    ({ target := "a.js", isDirectory := false, paths := ["a.js"] } : RuleTarget) ∈
        unpackTargets fsEx acceptsEx ["a.js", "missing.js"] ∧
    ({ target := "a.js", isDirectory := false, paths := ["a.js"] } : RuleTarget).paths ≠ [] ∧
    excludeNegatives fsEx (targetPatterns ["a.js", "missing.js"])
        (candidatePaths fsEx acceptsEx "missing.js") = [] ∧
    ({ target := "a.js", isDirectory := false, paths := ["a.js"] } : RuleTarget).target ≠
      "missing.js" := by
  refine ⟨by decide, ?_, by decide, ?_⟩
  · exact (unpackTargets_drops_empty fsEx acceptsEx ["a.js", "missing.js"]).1
      { target := "a.js", isDirectory := false, paths := ["a.js"] } (by decide)
  · exact (unpackTargets_drops_empty fsEx acceptsEx ["a.js", "missing.js"]).2
      "missing.js" (by decide)
      { target := "a.js", isDirectory := false, paths := ["a.js"] } (by decide)

/-- Witness for C5: swapping a negative glob past a positive entry leaves
the resolution unchanged. -/
theorem unpackTargets_negative_order_irrelevant_witness :
    (["!x", "a.js"] : List String).Perm ["a.js", "!x"] ∧
    positiveEntries ["!x", "a.js"] = positiveEntries ["a.js", "!x"] ∧
    unpackTargets fsEx acceptsEx ["!x", "a.js"] =
      unpackTargets fsEx acceptsEx ["a.js", "!x"] := by
  refine ⟨List.Perm.swap "a.js" "!x" [], by decide, ?_⟩
  exact unpackTargets_negative_order_irrelevant fsEx acceptsEx ["!x", "a.js"] ["a.js", "!x"]
    (List.Perm.swap "a.js" "!x" []) (by decide)

/-- The output formats of `src/lib/RuleManager.ts` (`OUTPUT_FORMAT`). -/
inductive OUTPUT_FORMAT
  | csv
  | html
  | json
  | junit
  | sarif
  | table
  | xml
deriving DecidableEq

/-- Modelled from the spec: an engine as consumed by the orchestrator
(spec.md §6): a name identifying its rules, a file-acceptance predicate,
and a run capability returning per-file violation results (abstracted to a
list of result records). -/
structure RuleEngine where
  name : String
  acceptsPath : String → Bool
  runEngine : List RuleTarget → List Rule → List String

/-- A warning message of the unmatched-target channel: singular wording
naming one target, or plural wording carrying the unmatched targets and
their comma-joined rendering (spec.md §4.3 step 5). -/
inductive WarningMsg
  | singular (target : String)
  | plural (targets : List String) (joined : String)
deriving DecidableEq

/-- An event emitted during a run: a warning event or a telemetry
event (spec.md §6). -/
inductive RunEvent
  | warning (msg : WarningMsg)
  | telemetry
deriving DecidableEq

/-- The observable outcome of `runRulesMatchingCriteria`: the formatted
results payload and the emitted events in order. -/
structure RunOutput where
  results : String
  events : List RunEvent
deriving DecidableEq

/-- The rules of a rule set belonging to one engine (spec.md §4.3 step 2:
group resolved rules by engine). -/
def rulesForEngine (rules : List Rule) (e : RuleEngine) : List Rule :=
  rules.filter (fun r => r.engine == e.name)

/-- Modelled from the spec: the engines that actually run (spec.md §4.3
step 2): engines with zero matching rules are skipped entirely. -/
def activeEngines (catalog : List Rule) (engines : List RuleEngine)
    (filters : List RuleFilter) : List RuleEngine :=
  engines.filter (fun e =>
    !(rulesForEngine (getRulesMatchingCriteria catalog filters) e).isEmpty)

/-- Modelled from the spec: the shared matched-targets tracker after all
engines resolved (spec.md §3, §4.2 step 6): every raw target that produced
a `RuleTarget` in any engine's resolution pass. -/
def matchedTargetsOf (fs : FileSystem) (engines : List RuleEngine)
    (targets : List String) : List String :=
  (engines.map (fun e => (unpackTargets fs e.acceptsPath targets).map RuleTarget.target)).flatten

/-- Modelled from the spec: the positive raw targets never resolved by any
engine (spec.md §4.3 step 5; negative globs are exclusion patterns, not
analyzable targets, and are never reported unmatched — spec.md §4.2 edge
cases and the test suite). -/
def unmatchedTargetsOf (fs : FileSystem) (engines : List RuleEngine)
    (targets : List String) : List String :=
  (positiveEntries targets).filter
    (fun t => !((matchedTargetsOf fs engines targets).contains t))

/-- Modelled from the spec: the warning events for an unmatched-target
set (spec.md §4.3 step 5): none when the set is empty, exactly one with
singular wording when it has one element, exactly one with plural wording
and the comma-joined list otherwise. -/
def warningsFor (u : List String) : List WarningMsg :=
  if u.isEmpty then []
  else if u.length == 1 then [WarningMsg.singular (u.headD "")]
  else [WarningMsg.plural u (String.intercalate ", " u)]

/-- Modelled from the spec: aggregation of all engines' results (spec.md
§4.3 steps 3–4, 6): each active engine resolves the shared target list; an
engine producing zero `RuleTarget` entries is not invoked; the per-engine
result lists are concatenated. -/
def aggregateResults (catalog : List Rule) (engines : List RuleEngine) (fs : FileSystem)
    (filters : List RuleFilter) (targets : List String) : List String :=
  ((activeEngines catalog engines filters).filterMap (fun e =>
    if (unpackTargets fs e.acceptsPath targets).isEmpty then none
    else some (e.runEngine (unpackTargets fs e.acceptsPath targets)
      (rulesForEngine (getRulesMatchingCriteria catalog filters) e)))).flatten

/-- Modelled from the spec: `runRulesMatchingCriteria` (spec.md §4.3):
resolve rules from filters, run active engines over the shared targets,
aggregate results (empty aggregate formats to the empty string regardless
of format), emit at most one unmatched-target warning and exactly one
telemetry event.  The implementing method of `DefaultRuleManager.ts` is
not in the snapshot; only its test suite is. -/
def runRulesMatchingCriteria (catalog : List Rule) (engines : List RuleEngine) (fs : FileSystem)
    (filters : List RuleFilter) (targets : List String) (fmt : OUTPUT_FORMAT)
    (formatFn : OUTPUT_FORMAT → List String → String) : RunOutput :=
  { results :=
      if (aggregateResults catalog engines fs filters targets).isEmpty then ""
      else formatFn fmt (aggregateResults catalog engines fs filters targets)
    events :=
      (warningsFor (unmatchedTargetsOf fs (activeEngines catalog engines filters) targets)).map
        RunEvent.warning ++ [RunEvent.telemetry] }

/-- The warning payload of an event, when it is a warning event. -/
def eventWarning : RunEvent → Option WarningMsg
  | RunEvent.warning w => some w
  | RunEvent.telemetry => none

/-- Whether an event is the telemetry event. -/
def isTelemetryEvent : RunEvent → Bool
  | RunEvent.warning _ => false
  | RunEvent.telemetry => true

/-- The warning events of a run outcome, in order. -/
def warningsOf (out : RunOutput) : List WarningMsg :=
  out.events.filterMap eventWarning

/-- The number of telemetry events of a run outcome. -/
def telemetryCount (out : RunOutput) : Nat :=
  (out.events.filter isTelemetryEvent).length

/-- Extracting warnings from mapped warning events recovers the list. -/
theorem filterMap_eventWarning_map (ws : List WarningMsg) :
    List.filterMap eventWarning (ws.map RunEvent.warning) = ws := by
  induction ws with
  | nil => rfl
  | cons w ws ih => simp [List.filterMap_cons, eventWarning, ih]

/-- The warnings of a run outcome are exactly the ones dictated by the
unmatched-target set. -/
theorem warningsOf_run (catalog : List Rule) (engines : List RuleEngine) (fs : FileSystem)
    (filters : List RuleFilter) (targets : List String) (fmt : OUTPUT_FORMAT)
    (formatFn : OUTPUT_FORMAT → List String → String) :
    warningsOf (runRulesMatchingCriteria catalog engines fs filters targets fmt formatFn) =
      warningsFor (unmatchedTargetsOf fs (activeEngines catalog engines filters) targets) := by
  unfold warningsOf runRulesMatchingCriteria
  rw [List.filterMap_append, filterMap_eventWarning_map]
  simp [eventWarning]

/-- A non-empty unmatched set produces exactly one warning event. -/
theorem warningsFor_length_one (u : List String) (hu : u ≠ []) :
    (warningsFor u).length = 1 := by
  have h0 : u.isEmpty = false := by simpa [List.isEmpty_iff] using hu
  unfold warningsFor
  rw [h0]
  cases h1 : (u.length == 1) <;> simp [h1]

/-- A singleton unmatched set produces the singular wording naming its
element. -/
theorem warningsFor_singular (t : String) :
    warningsFor [t] = [WarningMsg.singular t] := by
  rfl

/-- An unmatched set with more than one element produces the plural
wording carrying the set and its comma-joined rendering. -/
theorem warningsFor_plural (u : List String) (h : 1 < u.length) :
    warningsFor u = [WarningMsg.plural u (String.intercalate ", " u)] := by
  have h0 : u.isEmpty = false := by
    cases u with
    | nil => simp at h
    | cons a l => rfl
  have h1 : (u.length == 1) = false := by
    have hne : u.length ≠ 1 := by omega
    simpa using hne
  unfold warningsFor
  rw [h0, h1]
  simp

/-- C6: after a run, the unmatched-target set produces no warning event
when empty and exactly one warning event otherwise — singular wording
naming the single target when it has one element, plural wording carrying
the comma-joined list when it has more. -/
theorem runRulesMatchingCriteria_warning_unique (catalog : List Rule)
    (engines : List RuleEngine) (fs : FileSystem) (filters : List RuleFilter)
    (targets : List String) (fmt : OUTPUT_FORMAT)
    (formatFn : OUTPUT_FORMAT → List String → String) :
    (unmatchedTargetsOf fs (activeEngines catalog engines filters) targets = [] →
      warningsOf (runRulesMatchingCriteria catalog engines fs filters targets fmt formatFn) =
        []) ∧
    (unmatchedTargetsOf fs (activeEngines catalog engines filters) targets ≠ [] →
      (warningsOf
        (runRulesMatchingCriteria catalog engines fs filters targets fmt formatFn)).length =
        1) ∧
    (∀ t, unmatchedTargetsOf fs (activeEngines catalog engines filters) targets = [t] →
      warningsOf (runRulesMatchingCriteria catalog engines fs filters targets fmt formatFn) =
        [WarningMsg.singular t]) ∧
    (1 < (unmatchedTargetsOf fs (activeEngines catalog engines filters) targets).length →
      warningsOf (runRulesMatchingCriteria catalog engines fs filters targets fmt formatFn) =
        [WarningMsg.plural
          (unmatchedTargetsOf fs (activeEngines catalog engines filters) targets)
          (String.intercalate ", "
            (unmatchedTargetsOf fs (activeEngines catalog engines filters) targets))]) := by
  refine ⟨?_, ?_, ?_, ?_⟩
  · intro h
    rw [warningsOf_run, h]
    rfl
  · intro h
    rw [warningsOf_run]
    exact warningsFor_length_one _ h
  · intro t h
    rw [warningsOf_run, h]
    exact warningsFor_singular t
  · intro h
    rw [warningsOf_run]
    exact warningsFor_plural _ h

/-- A sample engine for concrete evaluations: owns the pmd rules and
reports the targets it analyzed. -/
def engineEx : RuleEngine :=
  { name := "pmd", acceptsPath := acceptsEx,
    runEngine := fun rts _ => rts.map RuleTarget.target }

/-- A sample formatter for concrete evaluations. -/
def formatFnEx : OUTPUT_FORMAT → List String → String :=
  fun _ vs => String.intercalate "; " vs

/-- Witness for C6: two unresolved targets produce exactly one warning
event, with plural wording and the comma-joined pair. -/
theorem runRulesMatchingCriteria_warning_unique_witness :
    unmatchedTargetsOf fsEx (activeEngines catalogEx [engineEx] []) ["t1.js", "t2.js"] =
      ["t1.js", "t2.js"] ∧
    warningsOf (runRulesMatchingCriteria catalogEx [engineEx] fsEx [] ["t1.js", "t2.js"]
        OUTPUT_FORMAT.json formatFnEx) =
      [WarningMsg.plural ["t1.js", "t2.js"] "t1.js, t2.js"] := by
  constructor
  · decide
  · have h := (runRulesMatchingCriteria_warning_unique catalogEx [engineEx] fsEx []
      ["t1.js", "t2.js"] OUTPUT_FORMAT.json formatFnEx).2.2.2 (by decide)
    rw [h]
    decide

/-- Whether a warning message names a given target: the singular wording
names its one target, the plural wording names each listed target. -/
def mentionsTarget : WarningMsg → String → Bool
  | WarningMsg.singular t0, t => t0 == t
  | WarningMsg.plural ts _, t => ts.contains t

/-- A target named by any warning of an unmatched set is an element of
that set. -/
theorem warningsFor_mentions_mem (u : List String) (w : WarningMsg) (t : String)
    (hw : w ∈ warningsFor u) (hm : mentionsTarget w t = true) : t ∈ u := by
  unfold warningsFor at hw
  cases h0 : u.isEmpty with
  | true =>
    rw [h0] at hw
    simp at hw
  | false =>
    rw [h0] at hw
    cases h1 : (u.length == 1) with
    | true =>
      rw [h1] at hw
      simp at hw
      subst hw
      simp [mentionsTarget] at hm
      rw [← hm]
      cases u with
      | nil => simp at h0
      | cons a l => simp
    | false =>
      rw [h1] at hw
      simp at hw
      subst hw
      simp [mentionsTarget] at hm
      exact hm

/-- A target resolved by one of the engines belongs to the shared
matched-targets tracker. -/
theorem mem_matchedTargetsOf (fs : FileSystem) (engines : List RuleEngine)
    (targets : List String) (e : RuleEngine) (t : String) (he : e ∈ engines)
    (ht : t ∈ (unpackTargets fs e.acceptsPath targets).map RuleTarget.target) :
    t ∈ matchedTargetsOf fs engines targets := by
  unfold matchedTargetsOf
  rw [List.mem_flatten]
  exact ⟨(unpackTargets fs e.acceptsPath targets).map RuleTarget.target,
    List.mem_map_of_mem _ he, ht⟩

/-- C7: a raw target resolved into a `RuleTarget` by at least one active
engine is never named by the unmatched-target warning of the run. -/
theorem runRulesMatchingCriteria_matched_not_warned (catalog : List Rule)
    (engines : List RuleEngine) (fs : FileSystem) (filters : List RuleFilter)
    (targets : List String) (fmt : OUTPUT_FORMAT)
    (formatFn : OUTPUT_FORMAT → List String → String) (t : String) (e : RuleEngine)
    (he : e ∈ activeEngines catalog engines filters)
    (ht : t ∈ (unpackTargets fs e.acceptsPath targets).map RuleTarget.target) :
    ∀ w ∈ warningsOf (runRulesMatchingCriteria catalog engines fs filters targets fmt formatFn),
      mentionsTarget w t = false := by
  intro w hw
  rw [warningsOf_run] at hw
  by_contra hb
  rw [Bool.not_eq_false] at hb
  have htu : t ∈ unmatchedTargetsOf fs (activeEngines catalog engines filters) targets :=
    warningsFor_mentions_mem _ w t hw hb
  have hmem : t ∈ matchedTargetsOf fs (activeEngines catalog engines filters) targets :=
    mem_matchedTargetsOf fs _ targets e t he ht
  unfold unmatchedTargetsOf at htu
  rw [List.mem_filter] at htu
  have hnot := htu.2
  simp at hnot
  exact hnot hmem

/-- Witness for C7: with one resolved and one unresolved target, the
single warning names the unresolved target and never the resolved one. -/
theorem runRulesMatchingCriteria_matched_not_warned_witness :
    engineEx ∈ activeEngines catalogEx [engineEx] [] ∧
    "a.js" ∈ (unpackTargets fsEx engineEx.acceptsPath ["a.js", "t1.js"]).map RuleTarget.target ∧
    WarningMsg.singular "t1.js" ∈
      warningsOf (runRulesMatchingCriteria catalogEx [engineEx] fsEx [] ["a.js", "t1.js"]
        OUTPUT_FORMAT.json formatFnEx) ∧
    mentionsTarget (WarningMsg.singular "t1.js") "a.js" = false := by
  refine ⟨List.Mem.head [], by decide, by decide, ?_⟩
  exact runRulesMatchingCriteria_matched_not_warned catalogEx [engineEx] fsEx []
    ["a.js", "t1.js"] OUTPUT_FORMAT.json formatFnEx "a.js" engineEx (List.Mem.head [])
    (by decide) (WarningMsg.singular "t1.js") (by decide)

/-- Prepending a negative entry leaves the positive entries unchanged. -/
theorem positiveEntries_cons_neg (s : String) (ts : List String)
    (hneg : isNegativeEntry s = true) :
    positiveEntries (s :: ts) = positiveEntries ts := by
  simp [positiveEntries, List.filter_cons, hneg]

/-- Prepending a negative entry prepends its pattern to the exclusion
set. -/
theorem targetPatterns_cons_neg (s : String) (ts : List String)
    (hneg : isNegativeEntry s = true) :
    targetPatterns (s :: ts) = s.drop 1 :: targetPatterns ts := by
  simp [targetPatterns, List.filter_cons, hneg]

/-- A pattern matching none of the paths excludes nothing. -/
theorem excludeNegatives_cons_inert (fs : FileSystem) (n : String) (negs : List String)
    (ps : List String) (h : ∀ p ∈ ps, fs.globMatch n p = false) :
    excludeNegatives fs (n :: negs) ps = excludeNegatives fs negs ps := by
  unfold excludeNegatives
  apply List.filter_congr
  intro p hp
  simp [List.any_cons, h p hp]

/-- A negative entry whose pattern matches no candidate of any positive
entry leaves the whole resolution unchanged. -/
theorem unpackTargets_cons_inert_neg (fs : FileSystem) (accepts : String → Bool)
    (s : String) (ts : List String) (hneg : isNegativeEntry s = true)
    (hinert : ∀ t ∈ positiveEntries ts, ∀ p ∈ candidatePaths fs accepts t,
      fs.globMatch (s.drop 1) p = false) :
    unpackTargets fs accepts (s :: ts) = unpackTargets fs accepts ts := by
  unfold unpackTargets
  rw [positiveEntries_cons_neg s ts hneg, targetPatterns_cons_neg s ts hneg]
  apply List.filterMap_congr
  intro t ht
  unfold resolveTarget
  rw [excludeNegatives_cons_inert fs (s.drop 1) (targetPatterns ts)
    (candidatePaths fs accepts t) (hinert t ht)]

/-- C8: when every positive target is matched by some engine, a negative
glob matching no candidate file of any positive target is inert: the run
outcome is unchanged by its presence and no unmatched-target warning is
emitted, in particular none for the negative entry itself. -/
theorem runRulesMatchingCriteria_inert_negative (catalog : List Rule)
    (engines : List RuleEngine) (fs : FileSystem) (filters : List RuleFilter)
    (targets : List String) (fmt : OUTPUT_FORMAT)
    (formatFn : OUTPUT_FORMAT → List String → String) (s : String)
    (hneg : isNegativeEntry s = true)
    (hinert : ∀ e ∈ engines, ∀ t ∈ positiveEntries targets,
      ∀ p ∈ candidatePaths fs e.acceptsPath t, fs.globMatch (s.drop 1) p = false)
    (hall : ∀ t ∈ positiveEntries targets,
      (matchedTargetsOf fs (activeEngines catalog engines filters) targets).contains t =
        true) :
    runRulesMatchingCriteria catalog engines fs filters (s :: targets) fmt formatFn =
      runRulesMatchingCriteria catalog engines fs filters targets fmt formatFn ∧
    warningsOf
      (runRulesMatchingCriteria catalog engines fs filters (s :: targets) fmt formatFn) =
      [] := by
  have hupact : ∀ e ∈ activeEngines catalog engines filters,
      unpackTargets fs e.acceptsPath (s :: targets) = unpackTargets fs e.acceptsPath targets :=
    fun e he => unpackTargets_cons_inert_neg fs e.acceptsPath s targets hneg
      (hinert e (List.mem_of_mem_filter he))
  have hmt : matchedTargetsOf fs (activeEngines catalog engines filters) (s :: targets) =
      matchedTargetsOf fs (activeEngines catalog engines filters) targets := by
    unfold matchedTargetsOf
    congr 1
    apply List.map_congr_left
    intro e he
    rw [hupact e he]
  have hun : unmatchedTargetsOf fs (activeEngines catalog engines filters) (s :: targets) =
      unmatchedTargetsOf fs (activeEngines catalog engines filters) targets := by
    unfold unmatchedTargetsOf
    rw [positiveEntries_cons_neg s targets hneg, hmt]
  have hagg : aggregateResults catalog engines fs filters (s :: targets) =
      aggregateResults catalog engines fs filters targets := by
    unfold aggregateResults
    congr 1
    apply List.filterMap_congr
    intro e he
    rw [hupact e he]
  have hrun : runRulesMatchingCriteria catalog engines fs filters (s :: targets) fmt formatFn =
      runRulesMatchingCriteria catalog engines fs filters targets fmt formatFn := by
    unfold runRulesMatchingCriteria
    rw [hagg, hun]
  have hu0 : unmatchedTargetsOf fs (activeEngines catalog engines filters) targets = [] := by
    unfold unmatchedTargetsOf
    rw [List.filter_eq_nil_iff]
    intro t htl
    simp
    simpa using hall t htl
  constructor
  · exact hrun
  · rw [hrun, warningsOf_run, hu0]
    rfl

/-- Witness for C8: a negative glob matching nothing, added to a fully
matched target list, changes nothing and triggers no warning. -/
theorem runRulesMatchingCriteria_inert_negative_witness :
    isNegativeEntry "!zzz" = true ∧
    runRulesMatchingCriteria catalogEx [engineEx] fsEx [] ["!zzz", "a.js"]
        OUTPUT_FORMAT.json formatFnEx =
      runRulesMatchingCriteria catalogEx [engineEx] fsEx [] ["a.js"]
        OUTPUT_FORMAT.json formatFnEx ∧
    warningsOf (runRulesMatchingCriteria catalogEx [engineEx] fsEx [] ["!zzz", "a.js"]
        OUTPUT_FORMAT.json formatFnEx) = [] := by
  have h := runRulesMatchingCriteria_inert_negative catalogEx [engineEx] fsEx [] ["a.js"]
    OUTPUT_FORMAT.json formatFnEx "!zzz" (by decide) (by decide) (by decide)
  exact ⟨by decide, h.1, h.2⟩

/-- C9: a run whose aggregated result set is empty — in particular one
whose filters match zero rules, so zero engines run — completes with the
empty string as its results payload, whatever the requested format. -/
theorem runRulesMatchingCriteria_empty_results (catalog : List Rule)
    (engines : List RuleEngine) (fs : FileSystem) (filters : List RuleFilter)
    (targets : List String) (fmt : OUTPUT_FORMAT)
    (formatFn : OUTPUT_FORMAT → List String → String) :
    (aggregateResults catalog engines fs filters targets = [] →
      (runRulesMatchingCriteria catalog engines fs filters targets fmt formatFn).results =
        "") ∧
    (getRulesMatchingCriteria catalog filters = [] →
      (runRulesMatchingCriteria catalog engines fs filters targets fmt formatFn).results =
        "") := by
  constructor
  · intro h
    simp [runRulesMatchingCriteria, h]
  · intro h
    have hact : activeEngines catalog engines filters = [] := by
      unfold activeEngines
      rw [List.filter_eq_nil_iff]
      intro e he
      simp [rulesForEngine, h]
    have hagg : aggregateResults catalog engines fs filters targets = [] := by
      unfold aggregateResults
      rw [hact]
      rfl
    simp [runRulesMatchingCriteria, hagg]

/-- Witness for C9: a filter matching no rule yields an empty results
payload. -/
theorem runRulesMatchingCriteria_empty_results_witness :
    getRulesMatchingCriteria catalogEx [RuleFilter.category ["beebleborp"]] = [] ∧
    (runRulesMatchingCriteria catalogEx [engineEx] fsEx
        [RuleFilter.category ["beebleborp"]] ["a.js"] OUTPUT_FORMAT.json
        formatFnEx).results = "" := by
  refine ⟨by decide, ?_⟩
  exact (runRulesMatchingCriteria_empty_results catalogEx [engineEx] fsEx
    [RuleFilter.category ["beebleborp"]] ["a.js"] OUTPUT_FORMAT.json formatFnEx).2 (by decide)

/-- Warning events are not telemetry events. -/
theorem filter_isTelemetryEvent_map_warning (ws : List WarningMsg) :
    (ws.map RunEvent.warning).filter isTelemetryEvent = [] := by
  induction ws with
  | nil => rfl
  | cons w ws ih => simp [List.filter_cons, isTelemetryEvent, ih]

/-- C10: every completed run emits exactly one telemetry event, however
many engines ran and whatever was matched or found. -/
theorem runRulesMatchingCriteria_single_telemetry (catalog : List Rule)
    (engines : List RuleEngine) (fs : FileSystem) (filters : List RuleFilter)
    (targets : List String) (fmt : OUTPUT_FORMAT)
    (formatFn : OUTPUT_FORMAT → List String → String) :
    telemetryCount (runRulesMatchingCriteria catalog engines fs filters targets fmt formatFn) =
      1 := by
  unfold telemetryCount runRulesMatchingCriteria
  rw [List.filter_append, filter_isTelemetryEvent_map_warning]
  rfl
